import Mathlib

/-!
# Verification of the truffle-codec value decoder

A shallow embedding of `src/packages/truffle-codec/lib/decode/value.ts`:
the value decode dispatcher `decodeValue`, the contract / external-function /
internal-function resolvers, and the three padding validators.

Byte arrays (JS `Uint8Array`) are modelled as `List Nat`; JS numbers holding
byte values, program counters and enum indices are modelled as `Nat`
(signed parses as `Int`); big numbers (`BN`) are exact, so also `Nat`/`Int`.
The two suspension points of the generator (the byte-range read and the
code-fetch request) are modelled as explicit inputs: the outcome of the read
is an `Except String Bytes` argument, and the code-fetch collaborator is a
function argument `fetchCode`.
-/

namespace TruffleCodec

/-- JS `Uint8Array` contents (each element is a byte value `< 256` in the
actual program; the model does not need the bound). -/
abbrev Bytes := List Nat

/-- JS `Array.prototype.slice` / `TypedArray.prototype.slice` with two integer
arguments: negative indices count from the end, indices are clamped to
`[0, length]`, and an empty window yields the empty list. -/
def jsSlice2 (l : Bytes) (start finish : Int) : Bytes :=
  let len : Int := l.length
  let s : Int := if start < 0 then max (len + start) 0 else min start len
  let e : Int := if finish < 0 then max (len + finish) 0 else min finish len
  (l.drop s.toNat).take (e - s).toNat

/-- JS `slice` with one argument: the end index defaults to the length. -/
def jsSlice1 (l : Bytes) (start : Int) : Bytes := jsSlice2 l start l.length

/-- `CodecUtils.Conversion.toBN`. Modelled from the spec: bytes are parsed as
an unsigned big-endian big integer. -/
def toBN (bytes : Bytes) : Nat :=
  bytes.foldl (fun acc b => acc * 256 + b) 0

/-- `CodecUtils.Conversion.toSignedBN`. Modelled from the spec: bytes are
parsed as a signed (two's-complement) big-endian big integer. -/
def toSignedBN (bytes : Bytes) : Int :=
  if 128 ≤ bytes.headD 0 then (toBN bytes : Int) - (256 : Int) ^ bytes.length
  else (toBN bytes : Int)

/-- One hexadecimal digit character for a nibble value. -/
def hexDigit (n : Nat) : Char :=
  "0123456789abcdef".toList.getD n '0'

/-- Two lowercase hexadecimal digits for one byte value. -/
def byteToHex (b : Nat) : String :=
  String.mk [hexDigit (b / 16 % 16), hexDigit (b % 16)]

/-- `CodecUtils.Conversion.toHexString`. Modelled from the spec: the bytes are
rendered as a `0x`-prefixed lowercase hex string. -/
def toHexString (bytes : Bytes) : String :=
  "0x" ++ String.join (bytes.map byteToHex)

/-- `CodecUtils.EVM.ADDRESS_SIZE`: an EVM address is 20 bytes. -/
def ADDRESS_SIZE : Nat := 20

/-- `CodecUtils.EVM.SELECTOR_SIZE`: an ABI selector is 4 bytes. -/
def SELECTOR_SIZE : Nat := 4

/-- `CodecUtils.EVM.PC_SIZE`: a program counter is stored in 4 bytes. -/
def PC_SIZE : Nat := 4

/-- `CodecUtils.Conversion.toAddress`. Modelled from the spec: normalize
address bytes to canonical form, i.e. the rightmost `ADDRESS_SIZE` bytes,
left-padded with zeros to exactly `ADDRESS_SIZE` bytes. -/
def toAddress (bytes : Bytes) : Bytes :=
  let tail := bytes.drop (bytes.length - ADDRESS_SIZE)
  List.replicate (ADDRESS_SIZE - tail.length) 0 ++ tail

/-- JS `String.fromCharCode` applied to a byte array: each argument becomes
one UTF-16 code unit (the argument value modulo 2^16); the JS string is
modelled as its list of code units. -/
def fromCharCode (bytes : Bytes) : List Nat :=
  bytes.map (fun b => b % 65536)

/-- An enum type (`Types.EnumType`), in possibly-resolved form: `options` is
`none` when the type has not been resolved against the user-defined-type
registry. -/
structure EnumType where
  id : Nat
  typeName : String
  options : Option (List String)
deriving DecidableEq

/-- A contract type (`Types.ContractType`). `typeName` is optional because the
underlying JS contexts carry an optional contract name. -/
structure ContractType where
  id : Nat
  typeName : Option String
  contractKind : String
  payable : Bool
deriving DecidableEq

/-- Static/dynamic kind of a bytes type. -/
inductive BytesKind
  | static (length : Nat)
  | dynamic
deriving DecidableEq

/-- Function visibility. -/
inductive Visibility
  | external
  | internal
deriving DecidableEq

/-- The type descriptors handled by `decodeValue` (`Types.Type`, restricted to
the type classes of its `switch`). -/
inductive Ty
  | bool
  | uint (bits : Nat)
  | int (bits : Nat)
  | address
  | contract (c : ContractType)
  | bytes (kind : BytesKind)
  | string
  | function (visibility : Visibility)
  | enum (e : EnumType)
  | fixed (bits places : Nat)
  | ufixed (bits places : Nat)
deriving DecidableEq

/-- One ABI entry, keyed by selector; only the `name` field is used. -/
structure AbiEntry where
  name : String
deriving DecidableEq

/-- A decoding context (`Contexts.DecoderContext`): a bytecode fingerprint
plus contract identity and ABI. -/
structure DecoderContext where
  binary : String
  contractId : Nat
  contractName : Option String
  contractKind : String
  payable : Bool
  isConstructor : Bool
  abi : Option (List (String × AbiEntry))
deriving DecidableEq

/-- One internal-function table entry (`Types.FunctionTableEntry`). -/
structure FunctionEntry where
  name : String
  contractId : Nat
  contractName : String
  contractKind : String
  contractPayable : Bool
  isDesignatedInvalid : Bool
deriving DecidableEq

/-- The user-defined-type registry, modelled from the spec as lookup tables
from type id to resolved full type. -/
structure UserDefinedTypes where
  enums : List (Nat × EnumType)
  contracts : List (Nat × ContractType)
deriving DecidableEq

/-- The EVM Info context bundle (`EvmInfo`). The execution `state` field is
omitted: it is consumed only by the read collaborator, whose outcome is an
explicit input of `decodeValue` in this model. -/
structure EvmInfo where
  contexts : List DecoderContext
  userDefinedTypes : UserDefinedTypes
  internalFunctionsTable : Option (List (Nat × FunctionEntry))
  currentContext : DecoderContext
deriving DecidableEq

/-- `Types.fullType` on an enum descriptor. Modelled from the spec: resolve
the enum against the user-defined-type registry; when the registry has no
entry the descriptor itself (whose options may be absent) is all we have. -/
def fullTypeEnum (e : EnumType) (udt : UserDefinedTypes) : EnumType :=
  (udt.enums.lookup e.id).getD e

/-- `Types.fullType` on a contract descriptor. Modelled from the spec:
resolve against the user-defined-type registry. -/
def fullTypeContract (c : ContractType) (udt : UserDefinedTypes) : ContractType :=
  (udt.contracts.lookup c.id).getD c

/-- Outcome of contract resolution (`Values.ContractValueInfo`). -/
inductive ContractValueInfo
  | known (address : Bytes) (contractClass : ContractType)
  | unknown (address : Bytes)
deriving DecidableEq

/-- Outcome of external-function resolution
(`Values.FunctionExternalValueInfo`). -/
inductive FunctionExternalValueInfo
  | known (contract : ContractValueInfo) (selector : String) (name : String)
  | invalid (contract : ContractValueInfo) (selector : String)
  | unknown (contract : ContractValueInfo) (selector : String)
deriving DecidableEq

/-- Outcome of internal-function resolution when it succeeds
(`Values.FunctionInternalValueInfo`). -/
inductive FunctionInternalValueInfo
  | known (context : ContractType) (deployedPc constructorPc : Nat)
      (name : String) (definedIn : ContractType)
  | exception (context : ContractType) (deployedPc constructorPc : Nat)
  | unknown (context : ContractType) (deployedPc constructorPc : Nat)
deriving DecidableEq

/-- The error sub-kinds carried by error results (the `Values.*Error`
classes). Padding errors carry the full offending bytes as hex. -/
inductive DecodeError
  | genericDecodingError (message : String)
  | boolPadding (raw : String)
  | boolOutOfRange (numeric : Nat)
  | uintPadding (raw : String)
  | intPadding (raw : String)
  | addressPadding (raw : String)
  | contractPadding (raw : String)
  | bytesPadding (raw : String)
  | functionExternalNonStackPadding (raw : String)
  | functionInternalPadding (raw : String)
  | malformedInternalFunction (context : ContractType) (constructorPc : Nat)
  | deployedFunctionInConstructor (context : ContractType) (deployedPc : Nat)
  | noSuchInternalFunction (context : ContractType) (deployedPc constructorPc : Nat)
  | enumNotFoundDecoding (fullType : EnumType) (numeric : Nat)
  | enumPadding (fullType : EnumType) (raw : String)
  | enumOutOfRange (fullType : EnumType) (numeric : Nat)
  | fixedPointNotYetSupported (raw : String)
deriving DecidableEq

/-- The payload of a successful decode (the `Values.*Value` classes). -/
inductive DecodedValue
  | boolValue (b : Bool)
  | uintValue (n : Nat)
  | intValue (n : Int)
  | addressValue (address : Bytes)
  | contractValue (info : ContractValueInfo)
  | bytesValue (hex : String)
  | stringValue (codeUnits : List Nat)
  | functionExternalValue (info : FunctionExternalValueInfo)
  | functionInternalValue (info : FunctionInternalValueInfo)
  | enumValue (numeric : Nat) (name : String)
deriving DecidableEq

/-- A decode result (`Values.Result`): per type class, exactly one value
variant and one error-result variant, both tagged with the type. -/
inductive Result
  | value (dataType : Ty) (v : DecodedValue)
  | errorResult (dataType : Ty) (e : DecodeError)
deriving DecidableEq

/-- The decoder mode (`DecoderMode`). -/
inductive DecoderMode
  | normal
  | permissive
  | strict
deriving DecidableEq

/-- The overall outcome of one `decodeValue` run: a returned result, the
`StopDecodingError` thrown in strict mode, or the uncaught JS `TypeError`
that dereferencing an `undefined` context in `decodeExternalFunction` would
raise. -/
inductive DecodeOutcome
  | ok (result : Result)
  | stopDecoding
  | jsTypeError
deriving DecidableEq

/-- `true` exactly on the returned-result outcome. -/
def DecodeOutcome.isOk : DecodeOutcome → Bool
  | .ok _ => true
  | _ => false

/-- `checkPaddingRight` (source lines 356-359): the bytes after the first
`length` must all be zero. -/
def checkPaddingRight (bytes : Bytes) (length : Nat) : Bool :=
  let padding := jsSlice1 bytes (length : Int)
  padding.all (fun paddingByte => paddingByte == 0)

/-- `checkPaddingLeft` (source lines 362-365): the bytes before the last
`length` must all be zero.  Note that `bytes.slice(0, -0)` is the *empty*
slice in JS, so width `0` passes vacuously. -/
def checkPaddingLeft (bytes : Bytes) (length : Nat) : Bool :=
  let padding := jsSlice2 bytes 0 (-(length : Int))
  padding.all (fun paddingByte => paddingByte == 0)

/-- `checkPaddingSigned` (source lines 367-372): the bytes before the last
`length` must all equal the sign byte of the value's leading byte. -/
def checkPaddingSigned (bytes : Bytes) (length : Nat) : Bool :=
  let padding := jsSlice2 bytes 0 (-(length : Int))
  let value := jsSlice1 bytes (-(length : Int))
  let signByte := if value.headD 0 &&& 128 != 0 then 255 else 0
  padding.all (fun paddingByte => paddingByte == signByte)

/-- Fueled computation of `⌈log₂ n⌉`: `0` for `n ≤ 1`, else one more than the
value at `⌈n / 2⌉`.  The fuel argument makes the recursion structural; fuel
`n` is always sufficient. -/
def ceilLog2Fuel : Nat → Nat → Nat
  | 0, _ => 0
  | fuel + 1, n => if n ≤ 1 then 0 else ceilLog2Fuel fuel ((n + 1) / 2) + 1

/-- `⌈log₂ n⌉` for `n ≥ 1` (and `0` for `n = 0`). -/
def ceilLog2 (n : Nat) : Nat := ceilLog2Fuel n n

/-- The enum padding width `Math.ceil(Math.log2(numOptions) / 8)` (source
line 192), in exact arithmetic: `⌈⌈log₂ n⌉ / 8⌉` equals `⌈log₂ n / 8⌉` for
every `n ≥ 1`.  (For `numOptions = 0` the JS float computation degenerates to
`-Infinity`; no enum encountered here has zero options, and the model then
uses width `0`, which classifies those decodes identically: they error in
every mode.) -/
def enumPaddingBytes (numOptions : Nat) : Nat :=
  (ceilLog2 numOptions + 7) / 8

/-- `Contexts.findDecoderContext`. Modelled from the spec: the registry
matches the fetched code against the context fingerprints (the match is the
registry's responsibility; exact match on the rendered code here), returning
the first matching context if any. -/
def findDecoderContext (contexts : List DecoderContext) (code : String) :
    Option DecoderContext :=
  contexts.find? (fun context => context.binary == code)

/-- `Contexts.contextToType`. Modelled from the spec: the contract type named
by a decoding context's identity fields. -/
def contextToType (context : DecoderContext) : ContractType :=
  { id := context.contractId
    typeName := context.contractName
    contractKind := context.contractKind
    payable := context.payable }

/-- `decodeContract` (source lines 243-260): normalize the address bytes,
fetch the code at that address (the suspension is modelled by the `fetchCode`
argument), match the code against the context registry, and return a Known
outcome when a context with a contract name matches, else Unknown. -/
def decodeContract (addressBytes : Bytes) (info : EvmInfo)
    (fetchCode : Bytes → Bytes) : ContractValueInfo :=
  let address := toAddress addressBytes
  let codeBytes := fetchCode address
  let code := toHexString codeBytes
  match findDecoderContext info.contexts code with
  | some context =>
    match context.contractName with
    | some _ => .known address (contextToType context)
    | none => .unknown address
  | none => .unknown address

/-- The selector lookup of `decodeExternalFunction` (source lines 274-276):
`context.abi !== undefined ? context.abi[selector] : undefined`. -/
def abiSelectorLookup (context : DecoderContext) (selector : String) :
    Option AbiEntry :=
  match context.abi with
  | some abi => abi.lookup selector
  | none => none

/-- `decodeExternalFunction` (source lines 264-282). Returns `none` exactly
where the JS code would crash with a `TypeError`: when the contract resolved
Known but no decoding context carries its id (`context` is `undefined` and
`context.abi` is dereferenced). -/
def decodeExternalFunction (addressBytes selectorBytes : Bytes)
    (info : EvmInfo) (fetchCode : Bytes → Bytes) :
    Option FunctionExternalValueInfo :=
  let contract := decodeContract addressBytes info fetchCode
  let selector := toHexString selectorBytes
  match contract with
  | .unknown _ => some (.unknown contract selector)
  | .known _ contractClass =>
    let contractId := contractClass.id
    match info.contexts.find? (fun context => context.contractId == contractId) with
    | none => none
    | some context =>
      let abiEntry := abiSelectorLookup context selector
      match abiEntry with
      | none => some (.invalid contract selector)
      | some entry => some (.known contract selector entry.name)

/-- The contract type the internal-function resolver builds from
`info.currentContext` (source lines 288-294). -/
def currentContractType (info : EvmInfo) : ContractType :=
  { id := info.currentContext.contractId
    typeName := info.currentContext.contractName
    contractKind := info.currentContext.contractKind
    payable := info.currentContext.payable }

/-- `decodeInternalFunction` (source lines 285-354): the synchronous
internal-function resolver.  It returns a `Result` directly (to carry its
errors), not an outcome. -/
def decodeInternalFunction (dataType : Ty)
    (deployedPcBytes constructorPcBytes : Bytes) (info : EvmInfo) : Result :=
  let deployedPc := toBN deployedPcBytes
  let constructorPc := toBN constructorPcBytes
  let context := currentContractType info
  match info.internalFunctionsTable with
  | none =>
    .value dataType (.functionInternalValue (.unknown context deployedPc constructorPc))
  | some table =>
    if deployedPc == 0 && constructorPc == 0 then
      .value dataType (.functionInternalValue (.exception context deployedPc constructorPc))
    else if deployedPc == 0 && constructorPc != 0 then
      .errorResult dataType (.malformedInternalFunction context constructorPc)
    else if info.currentContext.isConstructor && constructorPc == 0 then
      .errorResult dataType (.deployedFunctionInConstructor context deployedPc)
    else
      let pc := if info.currentContext.isConstructor then constructorPc else deployedPc
      match table.lookup pc with
      | none =>
        .errorResult dataType (.noSuchInternalFunction context deployedPc constructorPc)
      | some functionEntry =>
        if functionEntry.isDesignatedInvalid then
          .value dataType (.functionInternalValue (.exception context deployedPc constructorPc))
        else
          .value dataType (.functionInternalValue
            (.known context deployedPc constructorPc functionEntry.name
              { id := functionEntry.contractId
                typeName := some functionEntry.contractName
                contractKind := functionEntry.contractKind
                payable := functionEntry.contractPayable }))

/-- `decodeValue` (source lines 13-240): the value decode dispatcher.  The
outcome of the suspended byte-range read is the `readResult` argument
(`.error` for a failed read, i.e. a "segfault"); the code-fetch collaborator
is the `fetchCode` argument. -/
def decodeValue (dataType : Ty) (readResult : Except String Bytes)
    (fetchCode : Bytes → Bytes) (info : EvmInfo) (mode : DecoderMode) :
    DecodeOutcome :=
  let permissivePadding := mode == .permissive
  let strict := mode == .strict
  match readResult with
  | .error e =>
    if strict then .stopDecoding
    else .ok (.errorResult dataType (.genericDecodingError e))
  | .ok bytes =>
    match dataType with
    | .bool =>
      if !(checkPaddingLeft bytes 1) then
        if strict then .stopDecoding
        else .ok (.errorResult dataType (.boolPadding (toHexString bytes)))
      else
        let numeric := toBN bytes
        if numeric == 0 then .ok (.value dataType (.boolValue false))
        else if numeric == 1 then .ok (.value dataType (.boolValue true))
        else if strict then .stopDecoding
        else .ok (.errorResult dataType (.boolOutOfRange numeric))
    | .uint bits =>
      if !permissivePadding && !(checkPaddingLeft bytes (bits / 8)) then
        if strict then .stopDecoding
        else .ok (.errorResult dataType (.uintPadding (toHexString bytes)))
      else
        let bytes := jsSlice1 bytes (-((bits / 8 : Nat) : Int))
        .ok (.value dataType (.uintValue (toBN bytes)))
    | .int bits =>
      if !permissivePadding && !(checkPaddingSigned bytes (bits / 8)) then
        if strict then .stopDecoding
        else .ok (.errorResult dataType (.intPadding (toHexString bytes)))
      else
        let bytes := jsSlice1 bytes (-((bits / 8 : Nat) : Int))
        .ok (.value dataType (.intValue (toSignedBN bytes)))
    | .address =>
      if !permissivePadding && !(checkPaddingLeft bytes ADDRESS_SIZE) then
        if strict then .stopDecoding
        else .ok (.errorResult dataType (.addressPadding (toHexString bytes)))
      else
        .ok (.value dataType (.addressValue (toAddress bytes)))
    | .contract c =>
      if !permissivePadding && !(checkPaddingLeft bytes ADDRESS_SIZE) then
        if strict then .stopDecoding
        else .ok (.errorResult dataType (.contractPadding (toHexString bytes)))
      else
        let fullType := fullTypeContract c info.userDefinedTypes
        let contractValueInfo := decodeContract bytes info fetchCode
        .ok (.value (.contract fullType) (.contractValue contractValueInfo))
    | .bytes kind =>
      match kind with
      | .static length =>
        if !permissivePadding && !(checkPaddingRight bytes length) then
          if strict then .stopDecoding
          else .ok (.errorResult dataType (.bytesPadding (toHexString bytes)))
        else
          let bytes := jsSlice2 bytes 0 (length : Int)
          .ok (.value dataType (.bytesValue (toHexString bytes)))
      | .dynamic =>
        .ok (.value dataType (.bytesValue (toHexString bytes)))
    | .string =>
      .ok (.value dataType (.stringValue (fromCharCode bytes)))
    | .function visibility =>
      match visibility with
      | .external =>
        if !(checkPaddingRight bytes (ADDRESS_SIZE + SELECTOR_SIZE)) then
          if strict then .stopDecoding
          else .ok (.errorResult dataType
            (.functionExternalNonStackPadding (toHexString bytes)))
        else
          let address := jsSlice2 bytes 0 (ADDRESS_SIZE : Int)
          let selector := jsSlice2 bytes (ADDRESS_SIZE : Int)
            ((ADDRESS_SIZE + SELECTOR_SIZE : Nat) : Int)
          match decodeExternalFunction address selector info fetchCode with
          | some externalInfo =>
            .ok (.value dataType (.functionExternalValue externalInfo))
          | none => .jsTypeError
      | .internal =>
        if !(checkPaddingLeft bytes (2 * PC_SIZE)) then
          if strict then .stopDecoding
          else .ok (.errorResult dataType
            (.functionInternalPadding (toHexString bytes)))
        else
          let deployedPc := jsSlice1 bytes (-(PC_SIZE : Int))
          let constructorPc := jsSlice2 bytes (-((PC_SIZE * 2 : Nat) : Int)) (-(PC_SIZE : Int))
          .ok (decodeInternalFunction dataType deployedPc constructorPc info)
    | .enum e =>
      let numeric := toBN bytes
      let fullType := fullTypeEnum e info.userDefinedTypes
      match fullType.options with
      | none =>
        if strict then .stopDecoding
        else .ok (.errorResult (.enum fullType)
          (.enumNotFoundDecoding fullType numeric))
      | some options =>
        let numOptions := options.length
        let numBytes := enumPaddingBytes numOptions
        if !(checkPaddingLeft bytes numBytes) then
          if strict then .stopDecoding
          else .ok (.errorResult (.enum fullType)
            (.enumPadding fullType (toHexString bytes)))
        else if numeric < numOptions then
          .ok (.value (.enum fullType) (.enumValue numeric (options.getD numeric "")))
        else if strict then .stopDecoding
        else .ok (.errorResult (.enum fullType) (.enumOutOfRange fullType numeric))
    | .fixed _ _ =>
      if strict then .stopDecoding
      else .ok (.errorResult dataType (.fixedPointNotYetSupported (toHexString bytes)))
    | .ufixed _ _ =>
      if strict then .stopDecoding
      else .ok (.errorResult dataType (.fixedPointNotYetSupported (toHexString bytes)))

/-- Modelled from the spec: the internal-function resolver's contract as the
numbered precedence list of §4.4 — (1) no table configured ⇒ Unknown value;
(2) both PCs zero ⇒ Exception value; (3) deployed PC zero but constructor PC
nonzero ⇒ Malformed error; (4) in a constructor context with constructor PC
zero ⇒ DeployedFunctionInConstructor error; (5) otherwise look up
`constructorPc` when in a constructor context else `deployedPc`:
no entry ⇒ NoSuchInternalFunction error, designated-invalid entry ⇒
Exception value, else Known value with name and defining contract. -/
def decodeInternalFunctionSpec (dataType : Ty)
    (deployedPcBytes constructorPcBytes : Bytes) (info : EvmInfo) : Result :=
  let deployedPc := toBN deployedPcBytes
  let constructorPc := toBN constructorPcBytes
  let context := currentContractType info
  if info.internalFunctionsTable.isNone then
    .value dataType (.functionInternalValue (.unknown context deployedPc constructorPc))
  else if deployedPc == 0 && constructorPc == 0 then
    .value dataType (.functionInternalValue (.exception context deployedPc constructorPc))
  else if deployedPc == 0 && constructorPc != 0 then
    .errorResult dataType (.malformedInternalFunction context constructorPc)
  else if info.currentContext.isConstructor && constructorPc == 0 then
    .errorResult dataType (.deployedFunctionInConstructor context deployedPc)
  else
    let pc := if info.currentContext.isConstructor then constructorPc else deployedPc
    match (info.internalFunctionsTable.getD []).lookup pc with
    | none =>
      .errorResult dataType (.noSuchInternalFunction context deployedPc constructorPc)
    | some functionEntry =>
      if functionEntry.isDesignatedInvalid then
        .value dataType (.functionInternalValue (.exception context deployedPc constructorPc))
      else
        .value dataType (.functionInternalValue
          (.known context deployedPc constructorPc functionEntry.name
            { id := functionEntry.contractId
              typeName := some functionEntry.contractName
              contractKind := functionEntry.contractKind
              payable := functionEntry.contractPayable }))

/-- `true` exactly on the padding-error sub-kinds. -/
def isPaddingErrorKind : DecodeError → Bool
  | .boolPadding _ => true
  | .uintPadding _ => true
  | .intPadding _ => true
  | .addressPadding _ => true
  | .contractPadding _ => true
  | .bytesPadding _ => true
  | .functionExternalNonStackPadding _ => true
  | .functionInternalPadding _ => true
  | .enumPadding _ _ => true
  | _ => false

/-- `true` exactly on the padding-error sub-kinds of the type classes whose
padding check is guarded by `permissivePadding` in the source (uint, int,
address, contract, static bytes). -/
def isSkippedPaddingErrorKind : DecodeError → Bool
  | .uintPadding _ => true
  | .intPadding _ => true
  | .addressPadding _ => true
  | .contractPadding _ => true
  | .bytesPadding _ => true
  | _ => false

/-- `true` exactly on the three internal-function resolution errors. -/
def isInternalFunctionErrorKind : DecodeError → Bool
  | .malformedInternalFunction _ _ => true
  | .deployedFunctionInConstructor _ _ => true
  | .noSuchInternalFunction _ _ _ => true
  | _ => false

/-- `true` exactly on results that are the internal-function Exception value. -/
def isExceptionValue : Result → Bool
  | .value _ (.functionInternalValue (.exception _ _ _)) => true
  | _ => false

/-- A list of `n` zero bytes. -/
def zeros (n : Nat) : Bytes := List.replicate n 0

/-- A concrete decoding context: contract id 7, name `C`, bytecode
fingerprint `0x01`, one ABI entry at selector `0xdeadbeef`. -/
def ctxA : DecoderContext :=
  { binary := "0x01"
    contractId := 7
    contractName := some "C"
    contractKind := "contract"
    payable := false
    isConstructor := false
    abi := some [("0xdeadbeef", ⟨"f"⟩)] }

/-- A concrete EVM Info: one context, an internal-functions table with one
entry at PC 5, current context `ctxA`. -/
def infoA : EvmInfo :=
  { contexts := [ctxA]
    userDefinedTypes := ⟨[], []⟩
    internalFunctionsTable := some [(5, ⟨"g", 7, "C", "contract", false, false⟩)]
    currentContext := ctxA }

/-- `infoA` with no internal-functions table configured. -/
def infoNoTable : EvmInfo := { infoA with internalFunctionsTable := none }

/-- A concrete code-fetch collaborator whose answer matches `ctxA.binary`. -/
def fcA : Bytes → Bytes := fun _ => [1]

/-- A concrete one-option enum type. -/
def enumOne : EnumType := ⟨3, "E", some ["only"]⟩

/-- `infoA` with `enumOne` registered as user-defined type 3. -/
def infoE : EvmInfo := { infoA with userDefinedTypes := ⟨[(3, enumOne)], []⟩ }

/-! ## Helper lemmas -/

/-- A Known contract resolution names the id of some context in the
registry: the matching context itself carries that id. -/
theorem decodeContract_known_mem (addressBytes : Bytes) (info : EvmInfo)
    (fetchCode : Bytes → Bytes) (addr : Bytes) (cls : ContractType)
    (h : decodeContract addressBytes info fetchCode = .known addr cls) :
    ∃ ctx ∈ info.contexts, ctx.contractId = cls.id := by
  unfold decodeContract at h
  simp only [] at h
  cases hf : findDecoderContext info.contexts
      (toHexString (fetchCode (toAddress addressBytes))) with
  | none => rw [hf] at h; cases h
  | some ctx =>
    rw [hf] at h
    simp only [] at h
    cases hn : ctx.contractName with
    | none => rw [hn] at h; cases h
    | some name =>
      rw [hn] at h
      injection h with h1 h2
      refine ⟨ctx, ?_, ?_⟩
      · exact List.mem_of_find?_eq_some hf
      · rw [← h2]; rfl

/-- `decodeExternalFunction` never crashes: the JS `TypeError` branch is
unreachable, because a Known contract's id always matches a context in the
same registry the contract was resolved from. -/
theorem decodeExternalFunction_total (addressBytes selectorBytes : Bytes)
    (info : EvmInfo) (fetchCode : Bytes → Bytes) :
    ∃ v, decodeExternalFunction addressBytes selectorBytes info fetchCode = some v := by
  unfold decodeExternalFunction
  cases hc : decodeContract addressBytes info fetchCode with
  | unknown addr => exact ⟨_, rfl⟩
  | known addr cls =>
    obtain ⟨ctx, hmem, hid⟩ := decodeContract_known_mem _ _ _ _ _ hc
    cases hfind : info.contexts.find? (fun c => c.contractId == cls.id) with
    | none =>
      rw [List.find?_eq_none] at hfind
      exact absurd (by simp [hid]) (hfind ctx hmem)
    | some ctx' =>
      simp only [hfind]
      cases habi : abiSelectorLookup ctx' (toHexString selectorBytes) with
      | none => simp only [habi]; exact ⟨_, rfl⟩
      | some entry => simp only [habi]; exact ⟨_, rfl⟩

/-- Every result of `decodeInternalFunction` is either an internal-function
value or an error result of one of the three internal-function error kinds,
and always tagged with the given type. -/
theorem decodeInternalFunction_shape (dataType : Ty)
    (deployedPcBytes constructorPcBytes : Bytes) (info : EvmInfo) :
    (∃ v, decodeInternalFunction dataType deployedPcBytes constructorPcBytes info
        = .value dataType (.functionInternalValue v))
    ∨ ∃ err, decodeInternalFunction dataType deployedPcBytes constructorPcBytes info
        = .errorResult dataType err ∧ isInternalFunctionErrorKind err = true := by
  unfold decodeInternalFunction
  cases info.internalFunctionsTable with
  | none => exact .inl ⟨_, rfl⟩
  | some table =>
    dsimp only
    split
    · exact .inl ⟨_, rfl⟩
    split
    · exact .inr ⟨_, rfl, rfl⟩
    split
    · exact .inr ⟨_, rfl, rfl⟩
    cases table.lookup (if info.currentContext.isConstructor then
        toBN constructorPcBytes else toBN deployedPcBytes) with
    | none => exact .inr ⟨_, rfl, rfl⟩
    | some functionEntry =>
      dsimp only
      split
      · exact .inl ⟨_, rfl⟩
      · exact .inl ⟨_, rfl⟩

/-- `isOk` holds on every returned result. -/
theorem DecodeOutcome.isOk_ok (r : Result) : (DecodeOutcome.ok r).isOk = true := rfl

/-- A `decodeInternalFunction` error result always carries one of the three
internal-function error kinds. -/
theorem decodeInternalFunction_error_kind (dataType : Ty)
    (deployedPcBytes constructorPcBytes : Bytes) (info : EvmInfo)
    (ty : Ty) (err : DecodeError)
    (h : decodeInternalFunction dataType deployedPcBytes constructorPcBytes info
      = .errorResult ty err) :
    isInternalFunctionErrorKind err = true := by
  rcases decodeInternalFunction_shape dataType deployedPcBytes constructorPcBytes info with
    ⟨v, hv⟩ | ⟨err', hv, hk⟩
  · rw [hv] at h; cases h
  · rw [hv] at h
    injection h with h1 h2
    rw [← h2]
    exact hk

/-- In a non-strict mode `decodeValue` always returns a result — it never
aborts with `StopDecodingError` (and never reaches the unreachable
`TypeError` branch of external-function resolution). -/
theorem decodeValue_isOk_of_not_strict (dataType : Ty)
    (readResult : Except String Bytes) (fetchCode : Bytes → Bytes)
    (info : EvmInfo) (mode : DecoderMode)
    (hs : (mode == DecoderMode.strict) = false) :
    (decodeValue dataType readResult fetchCode info mode).isOk = true := by
  unfold decodeValue
  cases readResult with
  | error e => simp [hs, DecodeOutcome.isOk_ok]
  | ok bytes =>
    cases dataType with
    | bool => simp [hs, apply_ite DecodeOutcome.isOk, DecodeOutcome.isOk_ok]
    | uint bits => simp [hs, apply_ite DecodeOutcome.isOk, DecodeOutcome.isOk_ok]
    | int bits => simp [hs, apply_ite DecodeOutcome.isOk, DecodeOutcome.isOk_ok]
    | address => simp [hs, apply_ite DecodeOutcome.isOk, DecodeOutcome.isOk_ok]
    | contract c => simp [hs, apply_ite DecodeOutcome.isOk, DecodeOutcome.isOk_ok]
    | bytes kind =>
      cases kind with
      | static length => simp [hs, apply_ite DecodeOutcome.isOk, DecodeOutcome.isOk_ok]
      | dynamic => rfl
    | string => rfl
    | function visibility =>
      cases visibility with
      | external =>
        obtain ⟨v, hv⟩ := decodeExternalFunction_total
          (jsSlice2 bytes 0 (ADDRESS_SIZE : Int))
          (jsSlice2 bytes (ADDRESS_SIZE : Int) ((ADDRESS_SIZE : Int) + (SELECTOR_SIZE : Int)))
          info fetchCode
        simp [hs, hv, apply_ite DecodeOutcome.isOk, DecodeOutcome.isOk_ok]
      | internal => simp [hs, apply_ite DecodeOutcome.isOk, DecodeOutcome.isOk_ok]
    | enum e =>
      cases hopt : (fullTypeEnum e info.userDefinedTypes).options with
      | none => simp [hs, hopt, DecodeOutcome.isOk_ok]
      | some options =>
        simp [hs, hopt, apply_ite DecodeOutcome.isOk, DecodeOutcome.isOk_ok]
    | fixed bits places => simp [hs, DecodeOutcome.isOk_ok]
    | ufixed bits places => simp [hs, DecodeOutcome.isOk_ok]

/-- In strict mode, an embedded error result surviving in `decodeValue`'s
answer can only be an internal-function resolution error: every other error
occurrence is promoted to the abort. -/
theorem decodeValue_strict_error_internal (dataType : Ty)
    (readResult : Except String Bytes) (fetchCode : Bytes → Bytes)
    (info : EvmInfo) (ty : Ty) (err : DecodeError)
    (h : decodeValue dataType readResult fetchCode info .strict
      = .ok (.errorResult ty err)) :
    isInternalFunctionErrorKind err = true := by
  have e1 : (DecoderMode.strict == DecoderMode.strict) = true := rfl
  have e2 : (DecoderMode.strict == DecoderMode.permissive) = false := rfl
  unfold decodeValue at h
  cases readResult with
  | error e => simp [e1] at h
  | ok bytes =>
    cases dataType with
    | bool =>
      simp [e1, apply_ite (· = DecodeOutcome.ok (Result.errorResult ty err))] at h
    | uint bits =>
      simp [e1, e2, apply_ite (· = DecodeOutcome.ok (Result.errorResult ty err))] at h
    | int bits =>
      simp [e1, e2, apply_ite (· = DecodeOutcome.ok (Result.errorResult ty err))] at h
    | address =>
      simp [e1, e2, apply_ite (· = DecodeOutcome.ok (Result.errorResult ty err))] at h
    | contract c =>
      simp [e1, e2, apply_ite (· = DecodeOutcome.ok (Result.errorResult ty err))] at h
    | bytes kind =>
      cases kind with
      | static length =>
        simp [e1, e2, apply_ite (· = DecodeOutcome.ok (Result.errorResult ty err))] at h
      | dynamic => simp at h
    | string => simp at h
    | function visibility =>
      cases visibility with
      | external =>
        obtain ⟨v, hv⟩ := decodeExternalFunction_total
          (jsSlice2 bytes 0 (ADDRESS_SIZE : Int))
          (jsSlice2 bytes (ADDRESS_SIZE : Int) ((ADDRESS_SIZE : Int) + (SELECTOR_SIZE : Int)))
          info fetchCode
        simp [e1, hv, apply_ite (· = DecodeOutcome.ok (Result.errorResult ty err))] at h
      | internal =>
        simp [e1, apply_ite (· = DecodeOutcome.ok (Result.errorResult ty err))] at h
        exact decodeInternalFunction_error_kind _ _ _ _ _ _ h.2
    | enum e =>
      cases hopt : (fullTypeEnum e info.userDefinedTypes).options with
      | none => simp [e1, hopt] at h
      | some options =>
        simp [e1, hopt,
          apply_ite (· = DecodeOutcome.ok (Result.errorResult ty err))] at h
    | fixed bits places => simp [e1] at h
    | ufixed bits places => simp [e1] at h

/-- An internal-function error kind is never one of the padding-error kinds
whose checks the permissive mode skips. -/
theorem internal_error_kind_not_skipped (err : DecodeError)
    (h : isInternalFunctionErrorKind err = true) :
    isSkippedPaddingErrorKind err = false := by
  cases err <;> first | rfl | cases h

/-- In permissive mode, no error result of `decodeValue` ever carries a
uint, int, address, contract or static-bytes padding error: those are the
padding checks the mode skips. -/
theorem decodeValue_permissive_error_not_skipped (dataType : Ty)
    (readResult : Except String Bytes) (fetchCode : Bytes → Bytes)
    (info : EvmInfo) (ty : Ty) (err : DecodeError)
    (h : decodeValue dataType readResult fetchCode info .permissive
      = .ok (.errorResult ty err)) :
    isSkippedPaddingErrorKind err = false := by
  unfold decodeValue at h
  simp only [show (DecoderMode.permissive == DecoderMode.permissive) = true from rfl,
    show (DecoderMode.permissive == DecoderMode.strict) = false from rfl,
    Bool.not_true, Bool.false_and, Bool.false_eq_true, if_false] at h
  repeat' (first | split at h | simp only [] at h)
  all_goals first
    | (simp at h; rw [← h.2]; rfl)
    | (simp at h; done)
    | (try simp at h
       exact internal_error_kind_not_skipped _
         (decodeInternalFunction_error_kind _ _ _ _ _ _ h))

/-! ## Theorems -/

/-- C6: decoding a uint8 from 31 zero bytes followed by `0xFF` yields
`UintValue 255` in every mode; from 30 zero bytes, `0x01`, `0xFF` it yields a
`UintPaddingError` in normal mode, aborts in strict mode, and yields
`UintValue 255` in permissive mode (the truncation to the rightmost byte
ignores the violating padding byte). -/
theorem uint8_padding_cases (fetchCode : Bytes → Bytes) (info : EvmInfo) :
    (∀ mode, decodeValue (.uint 8) (.ok (zeros 31 ++ [255])) fetchCode info mode
      = .ok (.value (.uint 8) (.uintValue 255)))
    ∧ decodeValue (.uint 8) (.ok (zeros 30 ++ [1, 255])) fetchCode info .normal
      = .ok (.errorResult (.uint 8)
          (.uintPadding (toHexString (zeros 30 ++ [1, 255]))))
    ∧ decodeValue (.uint 8) (.ok (zeros 30 ++ [1, 255])) fetchCode info .strict
      = .stopDecoding
    ∧ decodeValue (.uint 8) (.ok (zeros 30 ++ [1, 255])) fetchCode info .permissive
      = .ok (.value (.uint 8) (.uintValue 255)) := by
  refine ⟨fun mode => ?_, rfl, rfl, rfl⟩
  cases mode <;> rfl

/-- C7: decoding a bool from 31 zero bytes followed by `0x02` yields
`BoolOutOfRangeError 2` in normal and permissive mode (the out-of-range check
on the full-bytes numeric is independent of the padding mode), and aborts in
strict mode. -/
theorem bool_out_of_range_every_mode (fetchCode : Bytes → Bytes) (info : EvmInfo) :
    decodeValue .bool (.ok (zeros 31 ++ [2])) fetchCode info .normal
      = .ok (.errorResult .bool (.boolOutOfRange 2))
    ∧ decodeValue .bool (.ok (zeros 31 ++ [2])) fetchCode info .permissive
      = .ok (.errorResult .bool (.boolOutOfRange 2))
    ∧ decodeValue .bool (.ok (zeros 31 ++ [2])) fetchCode info .strict
      = .stopDecoding :=
  ⟨rfl, rfl, rfl⟩

/-- C8: string decoding never produces an error result in any mode: every
byte sequence decodes to a `StringValue` whose code units are exactly the
byte values (no padding check, no encoding validation). -/
theorem string_never_errors (bytes : Bytes) (fetchCode : Bytes → Bytes)
    (info : EvmInfo) (mode : DecoderMode) (h : ∀ b ∈ bytes, b < 256) :
    decodeValue .string (.ok bytes) fetchCode info mode
      = .ok (.value .string (.stringValue (fromCharCode bytes)))
    ∧ fromCharCode bytes = bytes := by
  constructor
  · cases mode <;> rfl
  · unfold fromCharCode
    induction bytes with
    | nil => rfl
    | cons b tl ih =>
      have hb : b % 65536 = b :=
        Nat.mod_eq_of_lt (lt_trans (h b (by simp)) (by norm_num))
      simp only [List.map_cons, hb, List.cons.injEq, true_and]
      exact ih (fun x hx => h x (by simp [hx]))

/-- Witness for C8 at the spec's byte sequence `[0x41, 0xFF, 0x42]`. -/
theorem string_never_errors_witness :
    decodeValue .string (.ok [65, 255, 66]) fcA infoA .normal
      = .ok (.value .string (.stringValue (fromCharCode [65, 255, 66])))
    ∧ fromCharCode [65, 255, 66] = [65, 255, 66] :=
  string_never_errors [65, 255, 66] fcA infoA .normal (by decide)

/-- C9: fixed and ufixed decoding yields a `FixedPointNotYetSupportedError`
result for every byte content in normal and permissive mode, with no padding
check, and aborts in strict mode. -/
theorem fixed_ufixed_not_supported (bits places : Nat) (bytes : Bytes)
    (fetchCode : Bytes → Bytes) (info : EvmInfo) :
    decodeValue (.fixed bits places) (.ok bytes) fetchCode info .normal
      = .ok (.errorResult (.fixed bits places)
          (.fixedPointNotYetSupported (toHexString bytes)))
    ∧ decodeValue (.fixed bits places) (.ok bytes) fetchCode info .permissive
      = .ok (.errorResult (.fixed bits places)
          (.fixedPointNotYetSupported (toHexString bytes)))
    ∧ decodeValue (.fixed bits places) (.ok bytes) fetchCode info .strict
      = .stopDecoding
    ∧ decodeValue (.ufixed bits places) (.ok bytes) fetchCode info .normal
      = .ok (.errorResult (.ufixed bits places)
          (.fixedPointNotYetSupported (toHexString bytes)))
    ∧ decodeValue (.ufixed bits places) (.ok bytes) fetchCode info .permissive
      = .ok (.errorResult (.ufixed bits places)
          (.fixedPointNotYetSupported (toHexString bytes)))
    ∧ decodeValue (.ufixed bits places) (.ok bytes) fetchCode info .strict
      = .stopDecoding :=
  ⟨rfl, rfl, rfl, rfl, rfl, rfl⟩

/-- Counterexample to C1: with both PCs zero but no Program-Counter Table in
the EVM Info, `decodeInternalFunction` returns the Unknown value, not the
Exception value — the table-presence check precedes the zero-pair check. -/
theorem internal_zero_pair_no_table_counterexample :
    decodeInternalFunction (.function .internal) (zeros 4) (zeros 4) infoNoTable
      = .value (.function .internal)
          (.functionInternalValue (.unknown (currentContractType infoNoTable) 0 0))
    ∧ isExceptionValue
        (decodeInternalFunction (.function .internal) (zeros 4) (zeros 4) infoNoTable)
      = false :=
  ⟨rfl, rfl⟩

/-- C1 (amended): when a Program-Counter Table is configured, a pointer
whose deployed and constructor PCs are both zero resolves to the Exception
value whatever the table contains (so the pair (0,0) is never looked up);
without a table every pointer, including (0,0), resolves to the Unknown
value. -/
theorem internal_zero_pair (dataType : Ty) (dpb cpb : Bytes) (info : EvmInfo)
    (hd : toBN dpb = 0) (hc : toBN cpb = 0) :
    (info.internalFunctionsTable = none →
      decodeInternalFunction dataType dpb cpb info
        = .value dataType
            (.functionInternalValue (.unknown (currentContractType info) 0 0)))
    ∧ ∀ table, info.internalFunctionsTable = some table →
        decodeInternalFunction dataType dpb cpb info
          = .value dataType
              (.functionInternalValue (.exception (currentContractType info) 0 0)) := by
  unfold decodeInternalFunction
  constructor
  · intro h
    rw [h, hd, hc]
  · intro table h
    rw [h, hd, hc]
    rfl

/-- Witness for C1's amended theorem at the zero pair with `infoA`'s table. -/
theorem internal_zero_pair_witness :
    toBN (zeros 4) = 0
    ∧ decodeInternalFunction (.function .internal) (zeros 4) (zeros 4) infoA
        = .value (.function .internal)
            (.functionInternalValue (.exception (currentContractType infoA) 0 0)) :=
  ⟨rfl,
   (internal_zero_pair (.function .internal) (zeros 4) (zeros 4) infoA rfl rfl).2 _ rfl⟩

/-- C3: `decodeInternalFunction` agrees everywhere with the resolver written
from the spec's §4.4 precedence list — the cases are evaluated in exactly
that order with exactly those outcomes. -/
theorem internal_function_precedence (dataType : Ty)
    (deployedPcBytes constructorPcBytes : Bytes) (info : EvmInfo) :
    decodeInternalFunction dataType deployedPcBytes constructorPcBytes info
      = decodeInternalFunctionSpec dataType deployedPcBytes constructorPcBytes info := by
  unfold decodeInternalFunction decodeInternalFunctionSpec
  cases h : info.internalFunctionsTable <;> simp [h]

/-- C5: external-function resolution — an Unknown contract gives the Unknown
outcome with the unknown-contract info and selector; a Known contract whose
matching decoding context lacks the selector in its ABI gives the Invalid
outcome (a value shape); a present selector gives the Known outcome with the
contract info, selector and function name. -/
theorem external_function_resolution (addressBytes selectorBytes : Bytes)
    (info : EvmInfo) (fetchCode : Bytes → Bytes) :
    (∀ addr, decodeContract addressBytes info fetchCode = .unknown addr →
      decodeExternalFunction addressBytes selectorBytes info fetchCode
        = some (.unknown (.unknown addr) (toHexString selectorBytes)))
    ∧ ∀ addr cls ctx, decodeContract addressBytes info fetchCode = .known addr cls →
        info.contexts.find? (fun c => c.contractId == cls.id) = some ctx →
        (abiSelectorLookup ctx (toHexString selectorBytes) = none →
          decodeExternalFunction addressBytes selectorBytes info fetchCode
            = some (.invalid (.known addr cls) (toHexString selectorBytes)))
        ∧ ∀ entry, abiSelectorLookup ctx (toHexString selectorBytes) = some entry →
            decodeExternalFunction addressBytes selectorBytes info fetchCode
              = some (.known (.known addr cls) (toHexString selectorBytes) entry.name) := by
  constructor
  · intro addr h
    unfold decodeExternalFunction
    rw [h]
  · intro addr cls ctx h hfind
    constructor
    · intro habi
      unfold decodeExternalFunction
      rw [h]
      simp only [hfind, habi]
    · intro entry habi
      unfold decodeExternalFunction
      rw [h]
      simp only [hfind, habi]

/-- Witness for C5: with `infoA`, code `0x01` resolves Known to `ctxA`;
selector `0x00000001` is absent from its ABI (Invalid outcome) and selector
`0xdeadbeef` is present (Known outcome, name `f`). -/
theorem external_function_resolution_witness :
    decodeExternalFunction (zeros 20) [0, 0, 0, 1] infoA fcA
      = some (.invalid (.known (toAddress (zeros 20)) (contextToType ctxA)) "0x00000001")
    ∧ decodeExternalFunction (zeros 20) [222, 173, 190, 239] infoA fcA
      = some (.known (.known (toAddress (zeros 20)) (contextToType ctxA)) "0xdeadbeef" "f") :=
  ⟨((external_function_resolution (zeros 20) [0, 0, 0, 1] infoA fcA).2
      (toAddress (zeros 20)) (contextToType ctxA) ctxA rfl rfl).1 (by decide),
   ((external_function_resolution (zeros 20) [222, 173, 190, 239] infoA fcA).2
      (toAddress (zeros 20)) (contextToType ctxA) ctxA rfl rfl).2 ⟨"f"⟩ (by decide)⟩

/-- Counterexample to C2: in permissive mode the bool padding check still
runs, so a bool PaddingError result is produced. -/
theorem permissive_bool_padding_counterexample :
    decodeValue .bool (.ok [1, 0]) fcA infoA .permissive
      = .ok (.errorResult .bool (.boolPadding "0x0100"))
    ∧ isPaddingErrorKind (.boolPadding "0x0100") = true :=
  ⟨rfl, rfl⟩

/-- C2 (amended): in permissive mode `decodeValue` skips the padding check
only for uint, int, address, contract and static bytes — none of those five
padding errors can appear in its answer, and those five type classes always
produce a value — while the bool, external-function, internal-function and
enum padding checks still run. -/
theorem permissive_padding_skips (dataType : Ty) (readResult : Except String Bytes)
    (fetchCode : Bytes → Bytes) (info : EvmInfo) :
    (∀ ty err, decodeValue dataType readResult fetchCode info .permissive
        = .ok (.errorResult ty err) → isSkippedPaddingErrorKind err = false)
    ∧ (∀ bits bytes, decodeValue (.uint bits) (.ok bytes) fetchCode info .permissive
        = .ok (.value (.uint bits)
            (.uintValue (toBN (jsSlice1 bytes (-((bits / 8 : Nat) : Int)))))))
    ∧ (∀ bits bytes, decodeValue (.int bits) (.ok bytes) fetchCode info .permissive
        = .ok (.value (.int bits)
            (.intValue (toSignedBN (jsSlice1 bytes (-((bits / 8 : Nat) : Int)))))))
    ∧ (∀ bytes, decodeValue .address (.ok bytes) fetchCode info .permissive
        = .ok (.value .address (.addressValue (toAddress bytes))))
    ∧ (∀ c bytes, decodeValue (.contract c) (.ok bytes) fetchCode info .permissive
        = .ok (.value (.contract (fullTypeContract c info.userDefinedTypes))
            (.contractValue (decodeContract bytes info fetchCode))))
    ∧ (∀ len bytes, decodeValue (.bytes (.static len)) (.ok bytes) fetchCode info .permissive
        = .ok (.value (.bytes (.static len))
            (.bytesValue (toHexString (jsSlice2 bytes 0 (len : Int)))))) :=
  ⟨fun _ _ h => decodeValue_permissive_error_not_skipped _ _ _ _ _ _ h,
   fun _ _ => rfl, fun _ _ => rfl, fun _ => rfl, fun _ _ => rfl, fun _ _ => rfl⟩

/-- Witness for C2's amended theorem: the bool padding error that permissive
mode still produces is not one of the five skipped kinds, and a uint decode
with violated padding still yields a value in permissive mode. -/
theorem permissive_padding_skips_witness :
    isSkippedPaddingErrorKind (.boolPadding "0x0100") = false
    ∧ decodeValue (.uint 8) (.ok [1, 255]) fcA infoA .permissive
        = .ok (.value (.uint 8)
            (.uintValue (toBN (jsSlice1 [1, 255] (-((8 / 8 : Nat) : Int)))))) :=
  ⟨(permissive_padding_skips .bool (.ok [1, 0]) fcA infoA).1 _ _ rfl,
   (permissive_padding_skips (.uint 8) (.ok [1, 255]) fcA infoA).2.1 8 [1, 255]⟩

/-- Counterexample to C4: in strict mode an internal-function resolution
error (here the Malformed error for the pair (0,7)) is returned as an
embedded error result instead of being converted into the abort. -/
theorem strict_embedded_internal_error_counterexample :
    decodeValue (.function .internal) (.ok (zeros 24 ++ [0, 0, 0, 7] ++ zeros 4))
        fcA infoA .strict
      = .ok (.errorResult (.function .internal)
          (.malformedInternalFunction (currentContractType infoA) 7))
    ∧ decodeValue (.function .internal) (.ok (zeros 24 ++ [0, 0, 0, 7] ++ zeros 4))
        fcA infoA .strict
      ≠ .stopDecoding :=
  ⟨rfl, by decide⟩

/-- C4 (amended): normal and permissive mode never abort — `decodeValue`
always returns a result — and in strict mode every error occurrence of the
dispatcher itself is converted into the abort, the only embedded error
results that can survive being the internal-function resolution errors. -/
theorem decode_mode_abort_behavior (dataType : Ty) (readResult : Except String Bytes)
    (fetchCode : Bytes → Bytes) (info : EvmInfo) :
    (decodeValue dataType readResult fetchCode info .normal).isOk = true
    ∧ (decodeValue dataType readResult fetchCode info .permissive).isOk = true
    ∧ ∀ ty err, decodeValue dataType readResult fetchCode info .strict
        = .ok (.errorResult ty err) → isInternalFunctionErrorKind err = true :=
  ⟨decodeValue_isOk_of_not_strict _ _ _ _ _ rfl,
   decodeValue_isOk_of_not_strict _ _ _ _ _ rfl,
   fun _ _ h => decodeValue_strict_error_internal _ _ _ _ _ _ h⟩

/-- Witness for C4's amended theorem at the (0,7) internal pointer. -/
theorem decode_mode_abort_behavior_witness :
    isInternalFunctionErrorKind
      (.malformedInternalFunction (currentContractType infoA) 7) = true
    ∧ (decodeValue (.function .internal) (.ok (zeros 24 ++ [0, 0, 0, 7] ++ zeros 4))
        fcA infoA .normal).isOk = true :=
  ⟨(decode_mode_abort_behavior (.function .internal)
      (.ok (zeros 24 ++ [0, 0, 0, 7] ++ zeros 4)) fcA infoA).2.2
      (Ty.function .internal)
      (DecodeError.malformedInternalFunction (currentContractType infoA) 7) (by rfl),
   (decode_mode_abort_behavior (.function .internal)
      (.ok (zeros 24 ++ [0, 0, 0, 7] ++ zeros 4)) fcA infoA).1⟩

/-- Counterexample to C10: for a one-option enum, a nonzero numeric in
strict mode aborts the decode instead of yielding the EnumOutOfRangeError
result. -/
theorem one_option_enum_strict_counterexample :
    decodeValue (.enum ⟨3, "E", none⟩) (.ok (zeros 31 ++ [1])) fcA infoE .strict
      = .stopDecoding
    ∧ decodeValue (.enum ⟨3, "E", none⟩) (.ok (zeros 31 ++ [1])) fcA infoE .strict
      ≠ .ok (.errorResult (.enum enumOne) (.enumOutOfRange enumOne 1)) :=
  ⟨rfl, by decide⟩

/-- C10 (amended): for an enum resolving to exactly one option the computed
padding width is 0 and `checkPaddingLeft` at width 0 passes vacuously on
every byte content, so the decode never yields an EnumPaddingError: numeric
0 gives the EnumValue in every mode, and a nonzero numeric gives the
EnumOutOfRangeError in normal and permissive mode and the abort in strict
mode. -/
theorem one_option_enum_behavior (bytes : Bytes) (fetchCode : Bytes → Bytes)
    (info : EvmInfo) (e : EnumType) (name : String)
    (h : (fullTypeEnum e info.userDefinedTypes).options = some [name]) :
    checkPaddingLeft bytes 0 = true
    ∧ enumPaddingBytes 1 = 0
    ∧ (toBN bytes = 0 → ∀ mode, decodeValue (.enum e) (.ok bytes) fetchCode info mode
        = .ok (.value (.enum (fullTypeEnum e info.userDefinedTypes)) (.enumValue 0 name)))
    ∧ (toBN bytes ≠ 0 →
        decodeValue (.enum e) (.ok bytes) fetchCode info .normal
          = .ok (.errorResult (.enum (fullTypeEnum e info.userDefinedTypes))
              (.enumOutOfRange (fullTypeEnum e info.userDefinedTypes) (toBN bytes)))
        ∧ decodeValue (.enum e) (.ok bytes) fetchCode info .permissive
          = .ok (.errorResult (.enum (fullTypeEnum e info.userDefinedTypes))
              (.enumOutOfRange (fullTypeEnum e info.userDefinedTypes) (toBN bytes)))
        ∧ decodeValue (.enum e) (.ok bytes) fetchCode info .strict = .stopDecoding) := by
  have hpad : checkPaddingLeft bytes 0 = true := by
    simp [checkPaddingLeft, jsSlice2]
  refine ⟨hpad, rfl, ?_, ?_⟩
  · intro h0 mode
    cases mode <;>
      simp [decodeValue, h, h0, hpad,
        show enumPaddingBytes 1 = 0 from rfl,
        show (DecoderMode.normal == DecoderMode.permissive) = false from rfl,
        show (DecoderMode.normal == DecoderMode.strict) = false from rfl,
        show (DecoderMode.permissive == DecoderMode.permissive) = true from rfl,
        show (DecoderMode.permissive == DecoderMode.strict) = false from rfl,
        show (DecoderMode.strict == DecoderMode.permissive) = false from rfl,
        show (DecoderMode.strict == DecoderMode.strict) = true from rfl]
  · intro h0
    refine ⟨?_, ?_, ?_⟩ <;>
      simp [decodeValue, h, hpad, Nat.lt_one_iff, h0,
        show enumPaddingBytes 1 = 0 from rfl,
        show (DecoderMode.normal == DecoderMode.permissive) = false from rfl,
        show (DecoderMode.normal == DecoderMode.strict) = false from rfl,
        show (DecoderMode.permissive == DecoderMode.permissive) = true from rfl,
        show (DecoderMode.permissive == DecoderMode.strict) = false from rfl,
        show (DecoderMode.strict == DecoderMode.permissive) = false from rfl,
        show (DecoderMode.strict == DecoderMode.strict) = true from rfl]

/-- Witness for C10's amended theorem at a one-option enum with junk bytes. -/
theorem one_option_enum_behavior_witness :
    checkPaddingLeft [9, 9] 0 = true
    ∧ decodeValue (.enum ⟨3, "E", none⟩) (.ok [9, 9]) fcA infoE .normal
        = .ok (.errorResult (.enum (fullTypeEnum ⟨3, "E", none⟩ infoE.userDefinedTypes))
            (.enumOutOfRange (fullTypeEnum ⟨3, "E", none⟩ infoE.userDefinedTypes)
              (toBN [9, 9]))) :=
  ⟨(one_option_enum_behavior [9, 9] fcA infoE ⟨3, "E", none⟩ "only" rfl).1,
   ((one_option_enum_behavior [9, 9] fcA infoE ⟨3, "E", none⟩ "only" rfl).2.2.2
      (by decide)).1⟩

end TruffleCodec
